import Mathlib

/-!
Shallow embedding of the p2p-monopoly-money synchronization core.

JS objects keyed by strings (`Record<string, T>`) are modelled as
association lists `List (String × T)`; property read `obj[k]` is `lookup`
(first binding wins, as JS objects have unique keys) and spread update
`{...obj, [k]: v}` is `setKey` (replace the binding in place, or append a
new binding when the key is absent).  JS `number` balances, amounts and
timestamps are modelled as `Int`; the snapshot `version` as `Nat`.
Functions that `throw` are modelled in `Except String`; the impure
`uuidv4()` / `Date.now()` defaults inside `processTransaction` are passed
in as explicit `freshId` / `now` parameters.
-/

namespace P2PMoney

/-- Player record from src/types (fields used by the reducer). -/
structure Player where
  peerId : String
  name : String
  balance : Int
  isAdmin : Bool
  deriving Repr, DecidableEq

/-- Stash record from src/types. -/
structure Stash where
  id : String
  name : String
  balance : Int
  isInfinite : Bool
  deriving Repr, DecidableEq

/-- Transaction record from src/types/models.ts. -/
structure Transaction where
  id : String
  timestamp : Int
  senderId : String
  receiverId : String
  amount : Int
  isDeleted : Bool
  deriving Repr, DecidableEq

/-- GameStatus from src/types/models.ts: 'configuring' | 'active' | 'ended'. -/
inductive GameStatus where
  | configuring
  | active
  | ended
  deriving Repr, DecidableEq

/-- Render a GameStatus the way TS string interpolation would. -/
def statusText : GameStatus → String
  | .configuring => "configuring"
  | .active => "active"
  | .ended => "ended"

/-- GameState from src/types/models.ts. -/
structure GameState where
  id : String
  displayName : String
  status : GameStatus
  players : List (String × Player)
  stashes : List (String × Stash)
  transactions : List Transaction
  createdAt : Int
  startedAt : Option Int := none
  endedAt : Option Int := none
  version : Nat
  deriving Repr, DecidableEq

/-- JS object property read `obj[k]` on a keyed record. -/
def lookup {α : Type} (l : List (String × α)) (k : String) : Option α :=
  (l.find? (fun p => p.1 == k)).map (fun p => p.2)

/-- JS spread update `{...obj, [k]: v}`: replace the binding for `k` in
place, or append a fresh binding when `k` is absent. -/
def setKey {α : Type} : List (String × α) → String → α → List (String × α)
  | [], k, v => [(k, v)]
  | (k₀, v₀) :: rest, k, v =>
    if k₀ = k then (k, v) :: rest else (k₀, v₀) :: setKey rest k v

theorem lookup_nil {α : Type} (k : String) : lookup ([] : List (String × α)) k = none := rfl

theorem lookup_cons {α : Type} (k₀ : String) (v₀ : α) (rest : List (String × α)) (k : String) :
    lookup ((k₀, v₀) :: rest) k = if k₀ = k then some v₀ else lookup rest k := by
  by_cases h : k₀ = k
  · rw [if_pos h]
    simp [lookup, List.find?, h]
  · rw [if_neg h]
    have hb : (k₀ == k) = false := by simp [h]
    simp [lookup, List.find?, hb]

theorem lookup_setKey {α : Type} (l : List (String × α)) (k k' : String) (v : α) :
    lookup (setKey l k v) k' = if k' = k then some v else lookup l k' := by
  induction l with
  | nil =>
    show lookup [(k, v)] k' = _
    rw [lookup_cons, lookup_nil]
    by_cases h : k' = k
    · rw [if_pos h.symm, if_pos h]
    · rw [if_neg (fun hh => h hh.symm), if_neg h]
  | cons hd tl ih =>
    obtain ⟨k₀, v₀⟩ := hd
    by_cases h0 : k₀ = k
    · subst h0
      rw [show setKey ((k₀, v₀) :: tl) k₀ v = (k₀, v) :: tl from by simp [setKey]]
      rw [lookup_cons, lookup_cons]
      by_cases h : k₀ = k'
      · rw [if_pos h, if_pos h, if_pos h.symm]
      · rw [if_neg h, if_neg h, if_neg (fun hh => h hh.symm)]
    · rw [show setKey ((k₀, v₀) :: tl) k v = (k₀, v₀) :: setKey tl k v from by
        simp [setKey, h0]]
      rw [lookup_cons, lookup_cons, ih]
      by_cases h1 : k₀ = k'
      · rw [if_pos h1, if_neg (fun hh => h0 (h1.trans hh)), if_pos h1]
      · rw [if_neg h1, if_neg h1]

theorem setKey_of_lookup_none {α : Type} (l : List (String × α)) (k : String) (v : α)
    (h : lookup l k = none) : setKey l k v = l ++ [(k, v)] := by
  induction l with
  | nil => rfl
  | cons hd tl ih =>
    obtain ⟨k₀, v₀⟩ := hd
    rw [lookup_cons] at h
    by_cases h0 : k₀ = k
    · rw [if_pos h0] at h; exact absurd h (by simp)
    · rw [if_neg h0] at h
      simp [setKey, h0, ih h]

/-- Resolve `state.players[id] || state.stashes[id]` to the pair
(display name, balance) of the entity found, players first. -/
def resolveEntity (state : GameState) (id : String) : Option (String × Int) :=
  match lookup state.players id with
  | some p => some (p.name, p.balance)
  | none => (lookup state.stashes id).map (fun s => (s.name, s.balance))

/-- Balance of the entity `state.players[id] || state.stashes[id]`. -/
def entityBalance (state : GameState) (id : String) : Option Int :=
  (resolveEntity state id).map (fun e => e.2)

/-- GameStateReducer.isInfiniteStash: `state.stashes[id]?.isInfinite || false`. -/
def isInfiniteStash (state : GameState) (id : String) : Bool :=
  match lookup state.stashes id with
  | some s => s.isInfinite
  | none => false

/-- GameStateReducer.hasGameStarted: status is 'active' or 'ended'. -/
def hasGameStarted (state : GameState) : Bool :=
  state.status = GameStatus.active ∨ state.status = GameStatus.ended

/-- Mutation section of GameStateReducer.processTransaction (the code after
the validation checks): debit the sender unless it is an infinite stash,
credit the receiver unless it is an infinite stash.  Faithful to the
source, the receiver update reads the receiver's balance from the original
`state`, not from the partially updated copy, so when sender and receiver
coincide the credit overwrites the debit. -/
def applyBalances (state : GameState) (t : Transaction) :
    List (String × Player) × List (String × Stash) :=
  let players1 :=
    if isInfiniteStash state t.senderId then state.players
    else
      match lookup state.players t.senderId with
      | some p => setKey state.players t.senderId { p with balance := p.balance - t.amount }
      | none => state.players
  let stashes1 :=
    if isInfiniteStash state t.senderId then state.stashes
    else
      match lookup state.players t.senderId with
      | some _ => state.stashes
      | none =>
        match lookup state.stashes t.senderId with
        | some s => setKey state.stashes t.senderId { s with balance := s.balance - t.amount }
        | none => state.stashes
  let players2 :=
    if isInfiniteStash state t.receiverId then players1
    else
      match lookup state.players t.receiverId with
      | some p => setKey players1 t.receiverId { p with balance := p.balance + t.amount }
      | none => players1
  let stashes2 :=
    if isInfiniteStash state t.receiverId then stashes1
    else
      match lookup state.players t.receiverId with
      | some _ => stashes1
      | none =>
        match lookup state.stashes t.receiverId with
        | some s => setKey stashes1 t.receiverId { s with balance := s.balance + t.amount }
        | none => stashes1
  (players2, stashes2)

/-- GameStateReducer.processTransaction.  The impure defaults
`transaction.id || uuidv4()` and `transaction.timestamp || Date.now()` are
modelled by the explicit `freshId` / `now` arguments (JS falsiness of the
empty string and of 0). -/
def processTransaction (state : GameState) (t : Transaction) (freshId : String) (now : Int) :
    Except String GameState :=
  if t.amount ≤ 0 then
    .error "Transaction amount must be positive"
  else
    match resolveEntity state t.senderId with
    | none => .error ("Sender " ++ t.senderId ++ " not found")
    | some sender =>
      match resolveEntity state t.receiverId with
      | none => .error ("Receiver " ++ t.receiverId ++ " not found")
      | some _ =>
        if isInfiniteStash state t.senderId = false ∧ sender.2 < t.amount then
          .error ("Sender " ++ t.senderId ++ " has insufficient balance")
        else
          let updated := applyBalances state t
          let processedTx : Transaction :=
            { t with
              id := if t.id = "" then freshId else t.id
              timestamp := if t.timestamp = 0 then now else t.timestamp
              isDeleted := false }
          .ok { state with
                players := updated.1
                stashes := updated.2
                transactions := state.transactions ++ [processedTx]
                version := state.version + 1 }

/-- The fresh Player record that GameStateReducer.addPlayer creates;
`playerName || default` uses JS falsiness of the empty string. -/
def newPlayer (state : GameState) (playerId : String) (playerName : Option String) : Player :=
  { peerId := playerId
    name :=
      match playerName with
      | some n =>
        if n = "" then "Player " ++ toString (state.players.length + 1) else n
      | none => "Player " ++ toString (state.players.length + 1)
    balance := 0
    isAdmin := false }

/-- GameStateReducer.addPlayer. -/
def addPlayer (state : GameState) (playerId : String) (playerName : Option String) :
    Except String GameState :=
  match lookup state.players playerId with
  | some _ => .ok state
  | none =>
    if hasGameStarted state then
      .error "Cannot add new players after the game has started."
    else
      .ok { state with
            players := setKey state.players playerId (newPlayer state playerId playerName)
            version := state.version + 1 }

/-- GameStateReducer.startGame (Date.now() passed in as `now`). -/
def startGame (state : GameState) (now : Int) : Except String GameState :=
  if state.players.length = 0 then
    .error "Cannot start a game with no players"
  else
    .ok { state with status := GameStatus.active, startedAt := some now,
                     version := state.version + 1 }

/-- GameStateReducer.endGame (Date.now() passed in as `now`). -/
def endGame (state : GameState) (now : Int) : GameState :=
  { state with status := GameStatus.ended, endedAt := some now, version := state.version + 1 }

/-- GameStateReducer.setConfiguringState. -/
def setConfiguringState (state : GameState) : GameState :=
  if state.status = GameStatus.configuring then state
  else { state with status := GameStatus.configuring, version := state.version + 1 }

/-- GameStateReducer.syncState: last-writer-wins merge by version within
the same game id. -/
def syncState (currentState : Option GameState) (incomingState : GameState) : GameState :=
  match currentState with
  | none => incomingState
  | some c =>
    if incomingState.id = c.id ∧ incomingState.version > c.version then incomingState else c

/-- Result record of src/utils/transactionValidator.ts. -/
structure ValidationResult where
  isValid : Bool
  errorMessage : String
  deriving Repr, DecidableEq

/-- validateTransaction from src/utils/transactionValidator.ts, checks in
source order: sender exists, receiver exists, distinct endpoints, positive
amount, sufficient balance (unless infinite stash), game active. -/
def validateTransaction (state : GameState) (t : Transaction) : ValidationResult :=
  match resolveEntity state t.senderId with
  | none => ⟨false, "Sender " ++ t.senderId ++ " not found"⟩
  | some sender =>
    match resolveEntity state t.receiverId with
    | none => ⟨false, "Receiver " ++ t.receiverId ++ " not found"⟩
    | some _ =>
      if t.senderId = t.receiverId then
        ⟨false, "Sender and receiver cannot be the same"⟩
      else if t.amount ≤ 0 then
        ⟨false, "Transaction amount must be positive"⟩
      else if isInfiniteStash state t.senderId = false ∧ sender.2 < t.amount then
        ⟨false, "Sender " ++ sender.1 ++ " has insufficient balance (" ++ toString sender.2
          ++ ") for this transaction (" ++ toString t.amount ++ ")"⟩
      else if state.status ≠ GameStatus.active then
        ⟨false, "Cannot perform transactions while game is in \x27"
          ++ statusText state.status ++ "\x27 state"⟩
      else
        ⟨true, ""⟩

/-- Typed payload of a TRANSACTION_REQUEST peer message. -/
structure TransactionRequestPayload where
  id : String
  timestamp : Int
  senderId : String
  receiverId : String
  amount : Int
  deriving Repr, DecidableEq

/-- Typed peer messages from src/types/peerMessages.ts (the discriminant
`type` and the per-kind payload record). -/
inductive PeerMessage where
  | errorMsg (code : String) (message : String)
  | transactionRequest (p : TransactionRequestPayload)
  | stateSync (gameState : GameState)
  | gameStart (startedAt : Int)
  | gameEnd (endedAt : Int)
  deriving DecidableEq

/-- validateMessage from src/utils/messageUtils.ts, on messages that carry
a known discriminant and a payload record of the declared shape.  JS
truthiness of a string field is non-emptiness, of a numeric field is being
non-zero; `typeof payload.amount === "number"` is identically true on a
numeric amount field, so the amount's value is never inspected. -/
def validateMessage : PeerMessage → Bool
  | .errorMsg code message => code ≠ "" ∧ message ≠ ""
  | .transactionRequest p =>
      p.id ≠ "" ∧ p.timestamp ≠ 0 ∧ p.senderId ≠ "" ∧ p.receiverId ≠ ""
  | .stateSync _ => true
  | .gameStart startedAt => startedAt ≠ 0
  | .gameEnd endedAt => endedAt ≠ 0

/-- Sum of all player balances. -/
def playersTotal (players : List (String × Player)) : Int :=
  (players.map (fun p => p.2.balance)).sum

/-- Sum of the balances of all non-infinite (bounded) stashes. -/
def stashesTotal (stashes : List (String × Stash)) : Int :=
  ((stashes.filter (fun p => p.2.isInfinite = false)).map (fun p => p.2.balance)).sum

/-- Total balance held by bounded entities: every player plus every stash
that is not infinite. -/
def boundedTotal (state : GameState) : Int :=
  playersTotal state.players + stashesTotal state.stashes

/-- Balance of `P[id] || S[id]` over explicit player and stash maps. -/
def resolvePS (P : List (String × Player)) (S : List (String × Stash)) (id : String) :
    Option Int :=
  match lookup P id with
  | some p => some p.balance
  | none => (lookup S id).map (fun s => s.balance)

theorem entityBalance_eq (state : GameState) (id : String) :
    entityBalance state id = resolvePS state.players state.stashes id := by
  unfold entityBalance resolveEntity resolvePS
  cases lookup state.players id with
  | some p => rfl
  | none =>
    cases lookup state.stashes id with
    | some s => rfl
    | none => rfl

theorem playersTotal_cons (k : String) (v : Player) (tl : List (String × Player)) :
    playersTotal ((k, v) :: tl) = v.balance + playersTotal tl := by
  simp [playersTotal]

theorem stashesTotal_cons (k : String) (v : Stash) (tl : List (String × Stash)) :
    stashesTotal ((k, v) :: tl)
      = (if v.isInfinite = false then v.balance else 0) + stashesTotal tl := by
  by_cases h : v.isInfinite = false
  · simp [stashesTotal, List.filter_cons, h]
  · simp only [stashesTotal, List.filter_cons]
    simp [h]

theorem playersTotal_setKey (l : List (String × Player)) (k : String) (p v : Player)
    (h : lookup l k = some p) :
    playersTotal (setKey l k v) = playersTotal l + (v.balance - p.balance) := by
  induction l with
  | nil => rw [lookup_nil] at h; exact absurd h (by simp)
  | cons hd tl ih =>
    obtain ⟨k₀, v₀⟩ := hd
    rw [lookup_cons] at h
    by_cases h0 : k₀ = k
    · rw [if_pos h0] at h
      injection h with h
      subst h
      rw [show setKey ((k₀, v₀) :: tl) k v = (k, v) :: tl from by simp [setKey, h0]]
      rw [playersTotal_cons, playersTotal_cons]
      ring
    · rw [if_neg h0] at h
      rw [show setKey ((k₀, v₀) :: tl) k v = (k₀, v₀) :: setKey tl k v from by
        simp [setKey, h0]]
      rw [playersTotal_cons, playersTotal_cons, ih h]
      ring

theorem stashesTotal_setKey (l : List (String × Stash)) (k : String) (s v : Stash)
    (h : lookup l k = some s) (hinf : v.isInfinite = s.isInfinite) :
    stashesTotal (setKey l k v)
      = stashesTotal l + (if s.isInfinite = false then v.balance - s.balance else 0) := by
  induction l with
  | nil => rw [lookup_nil] at h; exact absurd h (by simp)
  | cons hd tl ih =>
    obtain ⟨k₀, v₀⟩ := hd
    rw [lookup_cons] at h
    by_cases h0 : k₀ = k
    · rw [if_pos h0] at h
      injection h with h
      subst h
      rw [show setKey ((k₀, v₀) :: tl) k v = (k, v) :: tl from by simp [setKey, h0]]
      rw [stashesTotal_cons, stashesTotal_cons, hinf]
      by_cases hi : v₀.isInfinite = false
      · rw [if_pos hi, if_pos hi, if_pos hi]; ring
      · rw [if_neg hi, if_neg hi, if_neg hi]; ring
    · rw [if_neg h0] at h
      rw [show setKey ((k₀, v₀) :: tl) k v = (k₀, v₀) :: setKey tl k v from by
        simp [setKey, h0]]
      rw [stashesTotal_cons, stashesTotal_cons, ih h]
      ring

theorem isInfiniteStash_eq_false_of_lookup (state : GameState) (id : String) (s : Stash)
    (hl : lookup state.stashes id = some s) (h : isInfiniteStash state id = false) :
    s.isInfinite = false := by
  unfold isInfiniteStash at h
  rw [hl] at h
  exact h

theorem applyBalances_sender (state : GameState) (t : Transaction) (b : Int)
    (hne : t.senderId ≠ t.receiverId)
    (hinfS : isInfiniteStash state t.senderId = false)
    (hb : resolvePS state.players state.stashes t.senderId = some b) :
    resolvePS (applyBalances state t).1 (applyBalances state t).2 t.senderId
      = some (b - t.amount) := by
  unfold resolvePS at hb
  cases hps : lookup state.players t.senderId with
  | some p =>
    rw [hps] at hb
    injection hb with hb
    cases hinfR : isInfiniteStash state t.receiverId with
    | true =>
      simp [applyBalances, resolvePS, hps, hinfS, hinfR, lookup_setKey, hb]
    | false =>
      cases hpr : lookup state.players t.receiverId with
      | some q =>
        simp [applyBalances, resolvePS, hps, hpr, hinfS, hinfR, lookup_setKey, hne, hb]
      | none =>
        cases hsr : lookup state.stashes t.receiverId with
        | some sr =>
          simp [applyBalances, resolvePS, hps, hpr, hsr, hinfS, hinfR, lookup_setKey, hne, hb]
        | none =>
          simp [applyBalances, resolvePS, hps, hpr, hsr, hinfS, hinfR, lookup_setKey, hb]
  | none =>
    rw [hps] at hb
    cases hss : lookup state.stashes t.senderId with
    | some s =>
      rw [hss] at hb
      injection hb with hb
      cases hinfR : isInfiniteStash state t.receiverId with
      | true =>
        simp [applyBalances, resolvePS, hps, hss, hinfS, hinfR, lookup_setKey, hb]
      | false =>
        cases hpr : lookup state.players t.receiverId with
        | some q =>
          simp [applyBalances, resolvePS, hps, hss, hpr, hinfS, hinfR, lookup_setKey, hne, hb]
        | none =>
          cases hsr : lookup state.stashes t.receiverId with
          | some sr =>
            simp [applyBalances, resolvePS, hps, hss, hpr, hsr, hinfS, hinfR, lookup_setKey,
              hne, hb]
          | none =>
            simp [applyBalances, resolvePS, hps, hss, hpr, hsr, hinfS, hinfR, lookup_setKey, hb]
    | none =>
      rw [hss] at hb
      exact absurd hb (by simp)

theorem applyBalances_receiver (state : GameState) (t : Transaction) (rb : Int)
    (hne : t.senderId ≠ t.receiverId)
    (hinfR : isInfiniteStash state t.receiverId = false)
    (hrb : resolvePS state.players state.stashes t.receiverId = some rb) :
    resolvePS (applyBalances state t).1 (applyBalances state t).2 t.receiverId
      = some (rb + t.amount) := by
  unfold resolvePS at hrb
  have hne' : t.receiverId ≠ t.senderId := fun hh => hne hh.symm
  cases hinfS : isInfiniteStash state t.senderId with
  | true =>
    cases hpr : lookup state.players t.receiverId with
    | some q =>
      rw [hpr] at hrb; injection hrb with hrb
      simp [applyBalances, resolvePS, hpr, hinfS, hinfR, lookup_setKey, hrb]
    | none =>
      rw [hpr] at hrb
      cases hsr : lookup state.stashes t.receiverId with
      | some sr =>
        rw [hsr] at hrb; injection hrb with hrb
        simp [applyBalances, resolvePS, hpr, hsr, hinfS, hinfR, lookup_setKey, hrb]
      | none => rw [hsr] at hrb; exact absurd hrb (by simp)
  | false =>
    cases hps : lookup state.players t.senderId with
    | some p =>
      cases hpr : lookup state.players t.receiverId with
      | some q =>
        rw [hpr] at hrb; injection hrb with hrb
        simp [applyBalances, resolvePS, hps, hpr, hinfS, hinfR, lookup_setKey, hne', hrb]
      | none =>
        rw [hpr] at hrb
        cases hsr : lookup state.stashes t.receiverId with
        | some sr =>
          rw [hsr] at hrb; injection hrb with hrb
          simp [applyBalances, resolvePS, hps, hpr, hsr, hinfS, hinfR, lookup_setKey, hne', hrb]
        | none => rw [hsr] at hrb; exact absurd hrb (by simp)
    | none =>
      cases hss : lookup state.stashes t.senderId with
      | some s =>
        cases hpr : lookup state.players t.receiverId with
        | some q =>
          rw [hpr] at hrb; injection hrb with hrb
          simp [applyBalances, resolvePS, hps, hss, hpr, hinfS, hinfR, lookup_setKey, hne', hrb]
        | none =>
          rw [hpr] at hrb
          cases hsr : lookup state.stashes t.receiverId with
          | some sr =>
            rw [hsr] at hrb; injection hrb with hrb
            simp [applyBalances, resolvePS, hps, hss, hpr, hsr, hinfS, hinfR, lookup_setKey,
              hne', hrb]
          | none => rw [hsr] at hrb; exact absurd hrb (by simp)
      | none =>
        cases hpr : lookup state.players t.receiverId with
        | some q =>
          rw [hpr] at hrb; injection hrb with hrb
          simp [applyBalances, resolvePS, hps, hss, hpr, hinfS, hinfR, lookup_setKey, hne', hrb]
        | none =>
          rw [hpr] at hrb
          cases hsr : lookup state.stashes t.receiverId with
          | some sr =>
            rw [hsr] at hrb; injection hrb with hrb
            simp [applyBalances, resolvePS, hps, hss, hpr, hsr, hinfS, hinfR, lookup_setKey,
              hne', hrb]
          | none => rw [hsr] at hrb; exact absurd hrb (by simp)

theorem applyBalances_total (state : GameState) (t : Transaction) (b rb : Int)
    (hne : t.senderId ≠ t.receiverId)
    (hinfS : isInfiniteStash state t.senderId = false)
    (hinfR : isInfiniteStash state t.receiverId = false)
    (hb : resolvePS state.players state.stashes t.senderId = some b)
    (hrb : resolvePS state.players state.stashes t.receiverId = some rb) :
    playersTotal (applyBalances state t).1 + stashesTotal (applyBalances state t).2
      = playersTotal state.players + stashesTotal state.stashes := by
  unfold resolvePS at hb hrb
  have hne' : t.receiverId ≠ t.senderId := fun hh => hne hh.symm
  cases hps : lookup state.players t.senderId with
  | some p =>
    cases hpr : lookup state.players t.receiverId with
    | some q =>
      -- player → player
      have h1 : lookup (setKey state.players t.senderId
          { p with balance := p.balance - t.amount }) t.receiverId = some q := by
        rw [lookup_setKey, if_neg hne']; exact hpr
      simp only [applyBalances, hps, hpr, hinfS, hinfR, Bool.false_eq_true, if_false]
      rw [playersTotal_setKey _ _ q _ h1, playersTotal_setKey _ _ p _ hps]
      simp
    | none =>
      cases hsr : lookup state.stashes t.receiverId with
      | some sr =>
        -- player → stash
        have hsrInf : sr.isInfinite = false :=
          isInfiniteStash_eq_false_of_lookup state t.receiverId sr hsr hinfR
        simp only [applyBalances, hps, hpr, hsr, hinfS, hinfR, Bool.false_eq_true, if_false]
        rw [playersTotal_setKey _ _ p _ hps,
            stashesTotal_setKey _ _ sr { sr with balance := sr.balance + t.amount } hsr rfl]
        simp [hsrInf]; ring
      | none => rw [hpr, hsr] at hrb; exact absurd hrb (by simp)
  | none =>
    cases hss : lookup state.stashes t.senderId with
    | some s =>
      have hsInf : s.isInfinite = false :=
        isInfiniteStash_eq_false_of_lookup state t.senderId s hss hinfS
      cases hpr : lookup state.players t.receiverId with
      | some q =>
        -- stash → player
        simp only [applyBalances, hps, hpr, hss, hinfS, hinfR, Bool.false_eq_true, if_false]
        rw [playersTotal_setKey _ _ q _ hpr,
            stashesTotal_setKey _ _ s { s with balance := s.balance - t.amount } hss rfl]
        simp [hsInf]; ring
      | none =>
        cases hsr : lookup state.stashes t.receiverId with
        | some sr =>
          -- stash → stash
          have hsrInf : sr.isInfinite = false :=
            isInfiniteStash_eq_false_of_lookup state t.receiverId sr hsr hinfR
          have h1 : lookup (setKey state.stashes t.senderId
              { s with balance := s.balance - t.amount }) t.receiverId = some sr := by
            rw [lookup_setKey, if_neg hne']; exact hsr
          simp only [applyBalances, hps, hpr, hss, hsr, hinfS, hinfR, Bool.false_eq_true, if_false]
          rw [stashesTotal_setKey _ _ sr { sr with balance := sr.balance + t.amount } h1 rfl,
              stashesTotal_setKey _ _ s { s with balance := s.balance - t.amount } hss rfl]
          simp [hsInf, hsrInf]
        | none => rw [hpr, hsr] at hrb; exact absurd hrb (by simp)
    | none => rw [hps, hss] at hb; exact absurd hb (by simp)


theorem applyBalances_self (state : GameState) (t : Transaction) (b : Int)
    (heq : t.senderId = t.receiverId)
    (hinfS : isInfiniteStash state t.senderId = false)
    (hb : resolvePS state.players state.stashes t.senderId = some b) :
    resolvePS (applyBalances state t).1 (applyBalances state t).2 t.senderId
        = some (b + t.amount) ∧
      playersTotal (applyBalances state t).1 + stashesTotal (applyBalances state t).2
        = playersTotal state.players + stashesTotal state.stashes + t.amount := by
  unfold resolvePS at hb
  have hinfR : isInfiniteStash state t.receiverId = false := by rw [← heq]; exact hinfS
  cases hps : lookup state.players t.senderId with
  | some p =>
    rw [hps] at hb
    injection hb with hb
    have hps' : lookup state.players t.receiverId = some p := by rw [← heq]; exact hps
    have h1 : lookup (setKey state.players t.senderId
        { p with balance := p.balance - t.amount }) t.receiverId
        = some { p with balance := p.balance - t.amount } := by
      rw [lookup_setKey, if_pos heq.symm]
    constructor
    · simp [applyBalances, resolvePS, hps, hps', hinfS, hinfR, lookup_setKey, heq, hb]
    · simp only [applyBalances, hps, hps', hinfS, hinfR, Bool.false_eq_true, if_false]
      rw [playersTotal_setKey _ _ { p with balance := p.balance - t.amount } _ h1,
          playersTotal_setKey _ _ p _ hps]
      simp; ring
  | none =>
    rw [hps] at hb
    cases hss : lookup state.stashes t.senderId with
    | some s =>
      rw [hss] at hb
      injection hb with hb
      have hsInf : s.isInfinite = false :=
        isInfiniteStash_eq_false_of_lookup state t.senderId s hss hinfS
      have hps' : lookup state.players t.receiverId = none := by rw [← heq]; exact hps
      have hss' : lookup state.stashes t.receiverId = some s := by rw [← heq]; exact hss
      have h1 : lookup (setKey state.stashes t.senderId
          { s with balance := s.balance - t.amount }) t.receiverId
          = some { s with balance := s.balance - t.amount } := by
        rw [lookup_setKey, if_pos heq.symm]
      constructor
      · simp [applyBalances, resolvePS, hps, hss, hps', hss', hinfS, hinfR, lookup_setKey,
          heq, hb]
      · simp only [applyBalances, hps, hss, hps', hss', hinfS, hinfR, Bool.false_eq_true,
          if_false]
        rw [stashesTotal_setKey _ _ { s with balance := s.balance - t.amount }
              { s with balance := s.balance + t.amount } h1 rfl,
            stashesTotal_setKey _ _ s { s with balance := s.balance - t.amount } hss rfl]
        simp [hsInf]; ring
    | none => rw [hss] at hb; exact absurd hb (by simp)


/-- The transfer record that processTransaction appends. -/
def processedTx (t : Transaction) (freshId : String) (now : Int) : Transaction :=
  { t with
    id := if t.id = "" then freshId else t.id
    timestamp := if t.timestamp = 0 then now else t.timestamp
    isDeleted := false }

theorem processTransaction_ok (state : GameState) (t : Transaction)
    (freshId : String) (now : Int) (sender : String × Int)
    (hpos : 0 < t.amount)
    (hs : resolveEntity state t.senderId = some sender)
    (hr : (resolveEntity state t.receiverId).isSome = true)
    (hbal : isInfiniteStash state t.senderId = false → t.amount ≤ sender.2) :
    processTransaction state t freshId now = .ok
      { state with
        players := (applyBalances state t).1
        stashes := (applyBalances state t).2
        transactions := state.transactions ++ [processedTx t freshId now]
        version := state.version + 1 } := by
  obtain ⟨r, hr'⟩ := Option.isSome_iff_exists.mp hr
  have hcond : ¬ (isInfiniteStash state t.senderId = false ∧ sender.2 < t.amount) := by
    rintro ⟨h1, h2⟩; exact absurd (hbal h1) (not_le.mpr h2)
  unfold processTransaction
  rw [if_neg (not_le.mpr hpos), hs, hr']
  simp only [if_neg hcond]
  rfl

/-- C1: a transfer between existing, distinct endpoints with positive
amount and sufficient bounded-source balance succeeds: the source is
debited unless unbounded, the destination credited unless unbounded, the
transfer is appended as a non-voided record, the version is incremented,
and when both endpoints are bounded the total bounded balance is
conserved. -/
theorem C1_processTransaction_success (state : GameState) (t : Transaction)
    (freshId : String) (now : Int) (b rb : Int)
    (hsb : entityBalance state t.senderId = some b)
    (hrb : entityBalance state t.receiverId = some rb)
    (hne : t.senderId ≠ t.receiverId)
    (hpos : 0 < t.amount)
    (hbal : isInfiniteStash state t.senderId = false → t.amount ≤ b) :
    ∃ s', processTransaction state t freshId now = Except.ok s' ∧
      (isInfiniteStash state t.senderId = false →
        entityBalance s' t.senderId = some (b - t.amount)) ∧
      (isInfiniteStash state t.receiverId = false →
        entityBalance s' t.receiverId = some (rb + t.amount)) ∧
      (∃ pt, s'.transactions = state.transactions ++ [pt] ∧ pt.isDeleted = false ∧
        pt.senderId = t.senderId ∧ pt.receiverId = t.receiverId ∧ pt.amount = t.amount) ∧
      s'.version = state.version + 1 ∧
      (isInfiniteStash state t.senderId = false → isInfiniteStash state t.receiverId = false →
        boundedTotal s' = boundedTotal state) := by
  have hb' : resolvePS state.players state.stashes t.senderId = some b := by
    rw [← entityBalance_eq]; exact hsb
  have hrb' : resolvePS state.players state.stashes t.receiverId = some rb := by
    rw [← entityBalance_eq]; exact hrb
  unfold entityBalance at hsb hrb
  obtain ⟨sender, hs, hs2⟩ := Option.map_eq_some'.mp hsb
  have hr : (resolveEntity state t.receiverId).isSome = true := by
    obtain ⟨r, hr0, _⟩ := Option.map_eq_some'.mp hrb
    rw [hr0]; rfl
  have hok := processTransaction_ok state t freshId now sender hpos hs hr
    (fun h => hs2.symm ▸ hbal h)
  refine ⟨_, hok, ?_, ?_, ⟨processedTx t freshId now, rfl, rfl, rfl, rfl, rfl⟩, rfl, ?_⟩
  · intro hinfS
    rw [entityBalance_eq]
    exact applyBalances_sender state t b hne hinfS hb'
  · intro hinfR
    rw [entityBalance_eq]
    exact applyBalances_receiver state t rb hne hinfR hrb'
  · intro hinfS hinfR
    unfold boundedTotal
    exact applyBalances_total state t b rb hne hinfS hinfR hb' hrb'

/-- C1 witness: the spec scenario — A (balance 100) transfers 30 to B
(balance 0) while the pot (bounded) and bank (infinite) sit unchanged. -/
def wState1 : GameState :=
  { id := "g1", displayName := "G", status := GameStatus.active,
    players := [("A", ⟨"A", "Alice", 100, true⟩), ("B", ⟨"B", "Bob", 0, false⟩)],
    stashes := [("bank", ⟨"bank", "Bank", 0, true⟩), ("pot", ⟨"pot", "Pot", 50, false⟩)],
    transactions := [], createdAt := 0, version := 1 }

def wTx1 : Transaction := ⟨"t1", 5, "A", "B", 30, false⟩

theorem C1_witness :
    entityBalance wState1 wTx1.senderId = some 100 ∧
    entityBalance wState1 wTx1.receiverId = some 0 ∧
    wTx1.senderId ≠ wTx1.receiverId ∧ 0 < wTx1.amount ∧
    ∃ s', processTransaction wState1 wTx1 "f" 9 = Except.ok s' ∧
      (isInfiniteStash wState1 wTx1.senderId = false →
        entityBalance s' wTx1.senderId = some (100 - wTx1.amount)) ∧
      (isInfiniteStash wState1 wTx1.receiverId = false →
        entityBalance s' wTx1.receiverId = some (0 + wTx1.amount)) ∧
      (∃ pt, s'.transactions = wState1.transactions ++ [pt] ∧ pt.isDeleted = false ∧
        pt.senderId = wTx1.senderId ∧ pt.receiverId = wTx1.receiverId ∧
        pt.amount = wTx1.amount) ∧
      s'.version = wState1.version + 1 ∧
      (isInfiniteStash wState1 wTx1.senderId = false →
        isInfiniteStash wState1 wTx1.receiverId = false →
        boundedTotal s' = boundedTotal wState1) :=
  ⟨by decide, by decide, by decide, by decide,
    C1_processTransaction_success wState1 wTx1 "f" 9 100 0 (by decide) (by decide)
      (by decide) (by decide) (fun _ => by decide)⟩

/-- C2: syncState returns the incoming snapshot exactly when there is no
local snapshot, or when the game ids match and the incoming version is
strictly greater; in every other case it returns the local snapshot. -/
theorem C2_syncState_cases (inc : GameState) :
    syncState none inc = inc ∧
    (∀ s, inc.id = s.id → s.version < inc.version → syncState (some s) inc = inc) ∧
    (∀ s, inc.id ≠ s.id ∨ inc.version ≤ s.version → syncState (some s) inc = s) := by
  refine ⟨rfl, ?_, ?_⟩
  · intro s hid hv
    simp [syncState, hid, hv]
  · intro s h
    show (if inc.id = s.id ∧ inc.version > s.version then inc else s) = s
    rw [if_neg]
    rintro ⟨h1, h2⟩
    rcases h with h | h
    · exact h h1
    · exact absurd h2 (not_lt.mpr h)

def wg2a : GameState :=
  { id := "g2", displayName := "X", status := GameStatus.configuring, players := [],
    stashes := [], transactions := [], createdAt := 0, version := 1 }

def wg2b : GameState := { wg2a with version := 3 }

/-- C2 witness: a newer same-session snapshot is adopted; an older one is
ignored. -/
theorem C2_witness :
    syncState (some wg2a) wg2b = wg2b ∧ syncState (some wg2b) wg2a = wg2b :=
  ⟨(C2_syncState_cases wg2b).2.1 wg2a rfl (by decide),
   (C2_syncState_cases wg2a).2.2 wg2b (Or.inr (by decide))⟩

/-- C4: when both endpoints exist, the amount is positive, the source is
bounded (not an infinite stash) and its balance is strictly below the
amount, processTransaction fails with the insufficient-balance error; the
function is pure, so the input snapshot is untouched. -/
theorem C4_processTransaction_insufficient (state : GameState) (t : Transaction)
    (freshId : String) (now : Int) (b : Int)
    (hsb : entityBalance state t.senderId = some b)
    (hr : (entityBalance state t.receiverId).isSome = true)
    (hpos : 0 < t.amount)
    (hinf : isInfiniteStash state t.senderId = false)
    (hlt : b < t.amount) :
    processTransaction state t freshId now
      = Except.error ("Sender " ++ t.senderId ++ " has insufficient balance") := by
  unfold entityBalance at hsb
  obtain ⟨sender, hs, hs2⟩ := Option.map_eq_some'.mp hsb
  cases hr0 : resolveEntity state t.receiverId with
  | none =>
    unfold entityBalance at hr
    rw [hr0] at hr
    exact absurd hr (by simp)
  | some r =>
    have hcond : isInfiniteStash state t.senderId = false ∧ sender.2 < t.amount :=
      ⟨hinf, by rw [hs2]; exact hlt⟩
    unfold processTransaction
    rw [if_neg (not_le.mpr hpos), hs, hr0]
    simp only [if_pos hcond]

def wState4 : GameState :=
  { id := "g4", displayName := "G", status := GameStatus.active,
    players := [("A", ⟨"A", "Alice", 70, true⟩), ("B", ⟨"B", "Bob", 30, false⟩)],
    stashes := [], transactions := [], createdAt := 0, version := 7 }

def wTx4 : Transaction := ⟨"t4", 5, "A", "B", 1000, false⟩

/-- C4 witness: the spec scenario — A (balance 70) attempts to transfer
1000 and the call fails with the insufficient-balance error. -/
theorem C4_witness :
    entityBalance wState4 wTx4.senderId = some 70 ∧ 0 < wTx4.amount ∧
    (70 : Int) < wTx4.amount ∧
    processTransaction wState4 wTx4 "f" 9
      = Except.error ("Sender " ++ wTx4.senderId ++ " has insufficient balance") :=
  ⟨by decide, by decide, by decide,
    C4_processTransaction_insufficient wState4 wTx4 "f" 9 70 (by decide) (by decide)
      (by decide) (by decide) (by decide)⟩

/-- C10: a self-transfer from a bounded existing endpoint, with positive
amount not exceeding its balance, succeeds and INCREASES that balance by
the amount — the credit is computed from the original balance and
overwrites the debit — appending the transfer, incrementing the version,
and raising the bounded total by the amount: conservation is violated. -/
theorem C10_processTransaction_self_transfer (state : GameState) (t : Transaction)
    (freshId : String) (now : Int) (b : Int)
    (heq : t.senderId = t.receiverId)
    (hsb : entityBalance state t.senderId = some b)
    (hinf : isInfiniteStash state t.senderId = false)
    (hpos : 0 < t.amount)
    (hbal : t.amount ≤ b) :
    ∃ s', processTransaction state t freshId now = Except.ok s' ∧
      entityBalance s' t.senderId = some (b + t.amount) ∧
      (∃ pt, s'.transactions = state.transactions ++ [pt] ∧ pt.isDeleted = false ∧
        pt.senderId = t.senderId ∧ pt.receiverId = t.receiverId ∧ pt.amount = t.amount) ∧
      s'.version = state.version + 1 ∧
      boundedTotal s' = boundedTotal state + t.amount := by
  have hb' : resolvePS state.players state.stashes t.senderId = some b := by
    rw [← entityBalance_eq]; exact hsb
  unfold entityBalance at hsb
  obtain ⟨sender, hs, hs2⟩ := Option.map_eq_some'.mp hsb
  have hr : (resolveEntity state t.receiverId).isSome = true := by
    rw [← heq, hs]; rfl
  have hok := processTransaction_ok state t freshId now sender hpos hs hr
    (fun _ => by rw [hs2]; exact hbal)
  obtain ⟨hbal1, htot⟩ := applyBalances_self state t b heq hinf hb'
  refine ⟨_, hok, ?_, ⟨processedTx t freshId now, rfl, rfl, rfl, rfl, rfl⟩, rfl, ?_⟩
  · rw [entityBalance_eq]
    exact hbal1
  · unfold boundedTotal
    exact htot

def wState10 : GameState :=
  { id := "ga", displayName := "G", status := GameStatus.active,
    players := [("A", ⟨"A", "Alice", 100, true⟩)],
    stashes := [], transactions := [], createdAt := 0, version := 1 }

def wTx10 : Transaction := ⟨"ta", 5, "A", "A", 30, false⟩

/-- C10 witness: A (balance 100) self-transfers 30 and ends with 130; the
bounded total grows by 30. -/
theorem C10_witness :
    wTx10.senderId = wTx10.receiverId ∧ 0 < wTx10.amount ∧
    ∃ s', processTransaction wState10 wTx10 "f" 9 = Except.ok s' ∧
      entityBalance s' wTx10.senderId = some (100 + wTx10.amount) ∧
      (∃ pt, s'.transactions = wState10.transactions ++ [pt] ∧ pt.isDeleted = false ∧
        pt.senderId = wTx10.senderId ∧ pt.receiverId = wTx10.receiverId ∧
        pt.amount = wTx10.amount) ∧
      s'.version = wState10.version + 1 ∧
      boundedTotal s' = boundedTotal wState10 + wTx10.amount :=
  ⟨by decide, by decide,
    C10_processTransaction_self_transfer wState10 wTx10 "f" 9 100 (by decide) (by decide)
      (by decide) (by decide) (by decide)⟩

def cexState5 : GameState :=
  { id := "g5", displayName := "G", status := GameStatus.configuring,
    players := [("A", ⟨"A", "Alice", 100, true⟩), ("B", ⟨"B", "Bob", 0, false⟩)],
    stashes := [], transactions := [], createdAt := 0, version := 1 }

/-- C5 counterexample: the game is still configuring (phase forming), yet
processTransaction applies a transfer and succeeds — it performs no phase
check at all. -/
theorem C5_counterexample :
    cexState5.status ≠ GameStatus.active ∧
    ∃ s', processTransaction cexState5 ⟨"t5", 5, "A", "B", 30, false⟩ "f" 9
      = Except.ok s' :=
  ⟨by decide, ⟨_, rfl⟩⟩

/-- C5 amended: the phase check lives in validateTransaction (run by
callers before submitting), not in processTransaction: when every earlier
check passes and the status is not active, validateTransaction rejects
with the cannot-perform message. -/
theorem C5_validateTransaction_rejects_wrong_phase (state : GameState) (t : Transaction)
    (nm : String) (b : Int)
    (hs : resolveEntity state t.senderId = some (nm, b))
    (hr : (resolveEntity state t.receiverId).isSome = true)
    (hne : t.senderId ≠ t.receiverId)
    (hpos : 0 < t.amount)
    (hbal : isInfiniteStash state t.senderId = false → t.amount ≤ b)
    (hstatus : state.status ≠ GameStatus.active) :
    validateTransaction state t
      = ⟨false, "Cannot perform transactions while game is in \x27"
          ++ statusText state.status ++ "\x27 state"⟩ := by
  obtain ⟨r, hr0⟩ := Option.isSome_iff_exists.mp hr
  have hcond : ¬ (isInfiniteStash state t.senderId = false ∧ ((nm, b) : String × Int).2 < t.amount) := by
    rintro ⟨h1, h2⟩; exact absurd (hbal h1) (not_le.mpr h2)
  unfold validateTransaction
  rw [hs, hr0]
  simp only [if_neg hne, if_neg (not_le.mpr hpos), if_neg hcond, if_pos hstatus]

/-- C5 amended witness: in the configuring snapshot the validator rejects
the very transfer that processTransaction accepted. -/
theorem C5_amended_witness :
    cexState5.status ≠ GameStatus.active ∧
    validateTransaction cexState5 ⟨"t5", 5, "A", "B", 30, false⟩
      = ⟨false, "Cannot perform transactions while game is in \x27"
          ++ statusText cexState5.status ++ "\x27 state"⟩ :=
  ⟨by decide,
    C5_validateTransaction_rejects_wrong_phase cexState5 ⟨"t5", 5, "A", "B", 30, false⟩
      "Alice" 100 (by decide) (by decide) (by decide) (by decide)
      (fun _ => by decide) (by decide)⟩

def cexState6 : GameState :=
  { id := "g6", displayName := "G", status := GameStatus.active,
    players := [("C", ⟨"C", "Cara", 100, false⟩)],
    stashes := [], transactions := [], createdAt := 0, version := 1 }

/-- C6 counterexample: a transfer whose source equals its destination is
accepted by processTransaction (it performs no same-endpoint check). -/
theorem C6_counterexample :
    (⟨"t6", 5, "C", "C", 30, false⟩ : Transaction).senderId
      = (⟨"t6", 5, "C", "C", 30, false⟩ : Transaction).receiverId ∧
    ∃ s', processTransaction cexState6 ⟨"t6", 5, "C", "C", 30, false⟩ "f" 9
      = Except.ok s' :=
  ⟨rfl, ⟨_, rfl⟩⟩

/-- C6 amended: the same-endpoint check lives in validateTransaction (run
by callers before submitting), not in processTransaction: whenever the
endpoint exists and source equals destination, validateTransaction rejects
with the same-endpoint message. -/
theorem C6_validateTransaction_rejects_same_endpoint (state : GameState) (t : Transaction)
    (hs : (resolveEntity state t.senderId).isSome = true)
    (heq : t.senderId = t.receiverId) :
    validateTransaction state t = ⟨false, "Sender and receiver cannot be the same"⟩ := by
  obtain ⟨sender, hs0⟩ := Option.isSome_iff_exists.mp hs
  have hr0 : resolveEntity state t.receiverId = some sender := by rw [← heq]; exact hs0
  unfold validateTransaction
  rw [hs0, hr0]
  simp only [if_pos heq]

/-- C6 amended witness: the validator rejects the self-transfer that
processTransaction accepted. -/
theorem C6_amended_witness :
    (resolveEntity cexState6 "C").isSome = true ∧
    validateTransaction cexState6 ⟨"t6", 5, "C", "C", 30, false⟩
      = ⟨false, "Sender and receiver cannot be the same"⟩ :=
  ⟨by decide,
    C6_validateTransaction_rejects_same_endpoint cexState6 ⟨"t6", 5, "C", "C", 30, false⟩
      (by decide) rfl⟩

def cexState7 : GameState :=
  { id := "g7", displayName := "G", status := GameStatus.ended,
    players := [("A", ⟨"A", "Alice", 0, true⟩)],
    stashes := [], transactions := [], createdAt := 0, version := 4 }

/-- C7 counterexample: the phase order regresses — setConfiguringState maps
a closed (ended) snapshot back to forming (configuring), and startGame
maps the same closed snapshot back to running (active). -/
theorem C7_counterexample :
    cexState7.status = GameStatus.ended ∧
    (setConfiguringState cexState7).status = GameStatus.configuring ∧
    ∃ s', startGame cexState7 9 = Except.ok s' ∧ s'.status = GameStatus.active :=
  ⟨rfl, rfl, ⟨_, rfl, rfl⟩⟩

/-- C7 amended: only endGame is monotone in the forming → running → closed
order: endGame always returns a closed snapshot, but setConfiguringState
returns a forming snapshot from every phase, and startGame succeeds on any
snapshot with at least one player — whatever its phase — returning a
running snapshot, so running and closed snapshots can regress. -/
theorem C7_phase_transitions (state : GameState) (now : Int) :
    (endGame state now).status = GameStatus.ended ∧
    (setConfiguringState state).status = GameStatus.configuring ∧
    (state.players ≠ [] → startGame state now
      = Except.ok { state with
          status := GameStatus.active
          startedAt := some now
          version := state.version + 1 }) := by
  refine ⟨rfl, ?_, ?_⟩
  · unfold setConfiguringState
    by_cases h : state.status = GameStatus.configuring
    · rw [if_pos h]; exact h
    · rw [if_neg h]
  · intro h
    unfold startGame
    rw [if_neg (fun hh => h (List.length_eq_zero.mp hh))]

/-- C7 amended witness: applied to the closed snapshot, setConfiguringState
yields configuring and startGame yields active. -/
theorem C7_amended_witness :
    cexState7.players ≠ [] ∧
    (setConfiguringState cexState7).status = GameStatus.configuring ∧
    startGame cexState7 9
      = Except.ok { cexState7 with
          status := GameStatus.active
          startedAt := some 9
          version := cexState7.version + 1 } :=
  ⟨by decide, (C7_phase_transitions cexState7 9).2.1,
    (C7_phase_transitions cexState7 9).2.2 (by decide)⟩

/-- C8: addPlayer case split — an existing identity is returned unchanged
in every phase (so a repeated call is a no-op); an unknown identity after
the game has started fails with the cannot-add error; otherwise exactly
one new non-admin player with zero balance is appended and the version
incremented, all other players untouched. -/
theorem C8_addPlayer_spec (state : GameState) (pid : String) (pname : Option String) :
    (∀ p, lookup state.players pid = some p → addPlayer state pid pname = Except.ok state) ∧
    (lookup state.players pid = none → hasGameStarted state = true →
      addPlayer state pid pname
        = Except.error "Cannot add new players after the game has started.") ∧
    (lookup state.players pid = none → hasGameStarted state = false →
      ∃ s', addPlayer state pid pname = Except.ok s' ∧
        (∃ p, lookup s'.players pid = some p ∧ p.isAdmin = false ∧ p.balance = 0) ∧
        s'.players.length = state.players.length + 1 ∧
        s'.version = state.version + 1 ∧
        (∀ k, k ≠ pid → lookup s'.players k = lookup state.players k)) ∧
    (∀ s', addPlayer state pid pname = Except.ok s' →
      addPlayer s' pid pname = Except.ok s') := by
  refine ⟨?_, ?_, ?_, ?_⟩
  · intro p hp
    unfold addPlayer
    rw [hp]
  · intro h hst
    unfold addPlayer
    rw [h]
    simp only [hst, if_true]
  · intro h hst
    unfold addPlayer
    rw [h]
    simp only [hst, Bool.false_eq_true, if_false]
    refine ⟨_, rfl, ⟨newPlayer state pid pname, ?_, rfl, rfl⟩, ?_, rfl, ?_⟩
    · show lookup (setKey state.players pid (newPlayer state pid pname)) pid = _
      rw [lookup_setKey, if_pos rfl]
    · show (setKey state.players pid (newPlayer state pid pname)).length = _
      rw [setKey_of_lookup_none _ _ _ h]
      simp
    · intro k hk
      show lookup (setKey state.players pid (newPlayer state pid pname)) k = _
      rw [lookup_setKey, if_neg hk]
  · intro s' h'
    unfold addPlayer at h'
    cases hp : lookup state.players pid with
    | some p =>
      rw [hp] at h'
      injection h' with h'
      subst h'
      unfold addPlayer
      rw [hp]
    | none =>
      rw [hp] at h'
      by_cases hst : hasGameStarted state = true
      · rw [if_pos hst] at h'
        exact absurd h' (by simp)
      · rw [if_neg hst] at h'
        injection h' with h'
        subst h'
        simp [addPlayer, lookup_setKey]

def wState8 : GameState :=
  { id := "g8", displayName := "G", status := GameStatus.configuring,
    players := [("A", ⟨"A", "Alice", 0, true⟩)],
    stashes := [], transactions := [], createdAt := 0, version := 1 }

/-- C8 witness: re-admitting A is a no-op, admitting B while forming adds
one zero-balance non-admin player, and admitting B after start fails. -/
theorem C8_witness :
    addPlayer wState8 "A" none = Except.ok wState8 ∧
    (∃ s', addPlayer wState8 "B" none = Except.ok s' ∧
      (∃ p, lookup s'.players "B" = some p ∧ p.isAdmin = false ∧ p.balance = 0) ∧
      s'.players.length = wState8.players.length + 1 ∧
      s'.version = wState8.version + 1 ∧
      (∀ k, k ≠ "B" → lookup s'.players k = lookup wState8.players k)) ∧
    addPlayer { wState8 with status := GameStatus.active } "B" none
      = Except.error "Cannot add new players after the game has started." :=
  ⟨(C8_addPlayer_spec wState8 "A" none).1 ⟨"A", "Alice", 0, true⟩ (by decide),
   (C8_addPlayer_spec wState8 "B" none).2.2.1 (by decide) (by decide),
   (C8_addPlayer_spec { wState8 with status := GameStatus.active } "B" none).2.1
     (by decide) (by decide)⟩

/-- C9 counterexample: a transaction-request whose numeric amount is -5
(non-positive) passes structural validation — validateMessage returns
true, not false. -/
theorem C9_counterexample :
    validateMessage (PeerMessage.transactionRequest ⟨"tx1", 5, "a", "b", -5⟩) = true := by
  decide

/-- C9 amended: validateMessage checks a transaction-request only for
truthy id, timestamp, senderId and receiverId plus the amount being a
number (always true of a numeric field); the amount's value — in
particular its sign — is never inspected, so envelopes with non-positive
numeric amounts are accepted, not dropped. -/
theorem C9_validateMessage_txRequest (p : TransactionRequestPayload) :
    validateMessage (PeerMessage.transactionRequest p) = true ↔
      (p.id ≠ "" ∧ p.timestamp ≠ 0 ∧ p.senderId ≠ "" ∧ p.receiverId ≠ "") := by
  simp [validateMessage]

/-- Fold a list of incoming snapshots through syncState, starting from an
optional local snapshot (none = no game state yet). -/
def syncFold (start : Option GameState) (l : List GameState) : Option GameState :=
  l.foldl (fun acc inc => some (syncState acc inc)) start

theorem syncState_some (c x : GameState) :
    syncState (some c) x = if x.id = c.id ∧ x.version > c.version then x else c := rfl

theorem syncFold_some_spec (sid : String) (l : List GameState) (c : GameState)
    (hc : c.id = sid) (hl : ∀ x ∈ l, x.id = sid) :
    ∃ r, syncFold (some c) l = some r ∧ (r = c ∨ r ∈ l) ∧ r.id = sid ∧
      r.version = (l.map GameState.version).foldl max c.version := by
  induction l generalizing c with
  | nil => exact ⟨c, rfl, Or.inl rfl, hc, rfl⟩
  | cons x rest ih =>
    have hx : x.id = sid := hl x (List.mem_cons_self x rest)
    have hkey : (syncState (some c) x = c ∨ syncState (some c) x = x) ∧
        (syncState (some c) x).id = sid ∧
        (syncState (some c) x).version = max c.version x.version := by
      rw [syncState_some]
      by_cases h : x.id = c.id ∧ x.version > c.version
      · rw [if_pos h]
        exact ⟨Or.inr rfl, hx, (max_eq_right (le_of_lt h.2)).symm⟩
      · rw [if_neg h]
        refine ⟨Or.inl rfl, hc, ?_⟩
        have hxim : ¬ x.version > c.version := fun hv => h ⟨hx.trans hc.symm, hv⟩
        exact (max_eq_left (not_lt.mp hxim)).symm
    obtain ⟨hmem, hid, hver⟩ := hkey
    obtain ⟨r, hr, hrmem, hrid, hrver⟩ := ih (syncState (some c) x) hid
      (fun y hy => hl y (List.mem_cons_of_mem _ hy))
    refine ⟨r, hr, ?_, hrid, ?_⟩
    · rcases hrmem with h | h
      · rcases hmem with h2 | h2
        · exact Or.inl (h.trans h2)
        · refine Or.inr ?_
          rw [h.trans h2]
          exact List.mem_cons_self x rest
      · exact Or.inr (List.mem_cons_of_mem _ h)
    · rw [hrver, hver]
      simp [List.foldl_cons]

theorem foldl_max_eq (m a : Nat) (ns : List Nat) (ha : a ≤ m) (hns : ∀ n ∈ ns, n ≤ m)
    (hmem : m ∈ ns ∨ m = a) : ns.foldl max a = m := by
  induction ns generalizing a with
  | nil =>
    rcases hmem with h | h
    · exact absurd h (List.not_mem_nil m)
    · simpa using h.symm
  | cons n rest ih =>
    rw [List.foldl_cons]
    have hn : n ≤ m := hns n (List.mem_cons_self n rest)
    apply ih (max a n) (max_le ha hn) (fun y hy => hns y (List.mem_cons_of_mem _ hy))
    rcases hmem with h | h
    · rcases List.mem_cons.mp h with h1 | h1
      · right
        rw [h1]
        exact (max_eq_right (h1 ▸ ha)).symm
      · left; exact h1
    · right
      have hn' : n ≤ a := h ▸ hn
      rw [max_eq_left hn']
      exact h

theorem version_inj_of_pairwise (l : List GameState)
    (hdist : l.Pairwise (fun a b => a.version ≠ b.version)) :
    ∀ a ∈ l, ∀ b ∈ l, a.version = b.version → a = b := by
  induction l with
  | nil => intro a ha; exact absurd ha (List.not_mem_nil a)
  | cons x rest ih =>
    have hx := List.pairwise_cons.mp hdist
    intro a ha b hb hab
    rcases List.mem_cons.mp ha with h1 | h1 <;> rcases List.mem_cons.mp hb with h2 | h2
    · rw [h1, h2]
    · rw [h1] at hab; exact absurd hab (hx.1 b h2)
    · rw [h2] at hab; exact absurd hab.symm (hx.1 a h1)
    · exact ih hx.2 a h1 b h2 hab

/-- C3: starting from an optional local snapshot and folding any
permutation of a finite set of snapshots that share one session id, have
pairwise-distinct versions, and are all strictly newer than the start
(which, when present, shares the session id), syncState converges to the
member of the set with the highest version. -/
theorem C3_syncFold_converges (start : Option GameState) (sid : String)
    (l perm : List GameState) (m : GameState)
    (hperm : perm.Perm l)
    (hid : ∀ x ∈ l, x.id = sid)
    (hstart : ∀ s, start = some s → s.id = sid ∧ ∀ x ∈ l, s.version < x.version)
    (hdist : l.Pairwise (fun a b => a.version ≠ b.version))
    (hm : m ∈ l) (hmax : ∀ x ∈ l, x.version ≤ m.version) :
    syncFold start perm = some m := by
  have hid' : ∀ x ∈ perm, x.id = sid := fun x hx => hid x (hperm.mem_iff.mp hx)
  have hinj := version_inj_of_pairwise l hdist
  cases start with
  | none =>
    cases perm with
    | nil =>
      have hl : l = [] := hperm.symm.eq_nil
      rw [hl] at hm
      exact absurd hm (List.not_mem_nil m)
    | cons x rest =>
      have hxl : x ∈ l := hperm.mem_iff.mp (List.mem_cons_self x rest)
      have hxid : x.id = sid := hid x hxl
      obtain ⟨r, hr, hrmem, hrid, hrver⟩ := syncFold_some_spec sid rest x hxid
        (fun y hy => hid' y (List.mem_cons_of_mem _ hy))
      have hstep : syncFold none (x :: rest) = syncFold (some x) rest := rfl
      rw [hstep, hr]
      have hver : r.version = m.version := by
        rw [hrver]
        apply foldl_max_eq
        · exact hmax x hxl
        · intro n hn
          obtain ⟨y, hy, hyv⟩ := List.mem_map.mp hn
          rw [← hyv]
          exact hmax y (hperm.mem_iff.mp (List.mem_cons_of_mem _ hy))
        · rcases List.mem_cons.mp (hperm.mem_iff.mpr hm) with h | h
          · right; rw [h]
          · left; exact List.mem_map_of_mem _ h
      have hrl : r ∈ l := by
        rcases hrmem with h | h
        · rw [h]; exact hxl
        · exact hperm.mem_iff.mp (List.mem_cons_of_mem _ h)
      rw [hinj r hrl m hm hver]
  | some s =>
    obtain ⟨hsid, hslt⟩ := hstart s rfl
    obtain ⟨r, hr, hrmem, hrid, hrver⟩ := syncFold_some_spec sid perm s hsid hid'
    rw [show syncFold (some s) perm = _ from hr]
    have hver : r.version = m.version := by
      rw [hrver]
      apply foldl_max_eq
      · exact le_of_lt (hslt m hm)
      · intro n hn
        obtain ⟨y, hy, hyv⟩ := List.mem_map.mp hn
        rw [← hyv]
        exact hmax y (hperm.mem_iff.mp hy)
      · left
        exact List.mem_map_of_mem _ (hperm.mem_iff.mpr hm)
    rcases hrmem with h | h
    · exfalso
      rw [h] at hver
      exact absurd hver (ne_of_lt (hslt m hm))
    · rw [hinj r (hperm.mem_iff.mp h) m hm hver]

def wg3 (v : Nat) : GameState :=
  { id := "g3", displayName := "X", status := GameStatus.active, players := [],
    stashes := [], transactions := [], createdAt := 0, version := v }

/-- C3 witness: local snapshot at version 1; versions 2 and 3 of the same
session arrive out of order and the fold still converges to version 3. -/
theorem C3_witness :
    syncFold (some (wg3 1)) [wg3 3, wg3 2] = some (wg3 3) :=
  C3_syncFold_converges (some (wg3 1)) "g3" [wg3 2, wg3 3] [wg3 3, wg3 2] (wg3 3)
    (List.Perm.swap (wg3 2) (wg3 3) [])
    (by decide)
    (fun s hs => by cases hs; exact ⟨rfl, by decide⟩)
    (by decide)
    (by decide)
    (by decide)

end P2PMoney
